import Mathlib

/-!
Verification model of the ACL Connection Manager
(system/bt, gd/hci/acl_manager.cc).

The definitions below are a shallow embedding of the manager:

* The per-connection reassembly step `on_incoming_packet` mirrors
  `AclManager::acl_connection::on_incoming_packet`, byte for byte, with the
  C++ integer conversions made explicit: the member
  `remaining_sdu_continuation_packet_size_` is a 32-bit signed `int`, the
  payload size is a `size_t`, so the comparison in the CONTINUING branch
  converts the int to an unsigned 64-bit value, and the assignment in the
  FIRST branch truncates a `size_t` expression to a signed 32-bit value.
* The manager-level step `processControllerInput` mirrors the ingress router
  and the HCI event handlers that the claims reference.  C++ `ASSERT`
  failures and undefined behaviour (dereferencing an `end()` iterator) are
  modelled as `Except.error` outcomes; the commands, scheduler calls and
  user callbacks a handler emits are collected in a list of `Output`s.
* `runUserOp` mirrors the user-facing boolean per-connection operations
  (`Disconnect`, `ReadRssi`, `LeConnectionUpdate`, ...); the result is the
  boolean the C++ function returns, the HCI commands whose posting it
  triggers, and the successor state.  `check_and_get_connection` asserts
  that the handle exists; this assertion is modelled as `none`.
-/

namespace Hci

/-- Payload bytes, as uint8_t. -/
abbrev Byte := Fin 256

/-- HCI ACL packet boundary flag (bits 13:12 of the ACL header). -/
inductive PacketBoundaryFlag where
  | firstNonAutomaticallyFlushable
  | continuingFragment
  | firstAutomaticallyFlushable
deriving DecidableEq, Repr

/-- Reassembly state of one connection: the fields recombination_stage_,
remaining_sdu_continuation_packet_size_ and incoming_queue_ of
AclManager::acl_connection. -/
structure ConnReasmState where
  recombination_stage : List Byte
  remaining_sdu_continuation_packet_size : Int
  incoming_queue : List (List Byte)
deriving DecidableEq, Repr

/-- Vendor debug handle dropped on ingress. -/
def kQualcommDebugHandle : Nat := 0xedc

/-- Capacity guard of incoming_queue_. -/
def kMaxQueuedPacketsPerConnection : Nat := 10

/-- Size of the L2CAP basic frame header. -/
def kL2capBasicFrameHeaderSize : Int := 4

/-- Truncation of an integer to a signed 32-bit value, as happens when the
size_t expression computing the remaining SDU size is stored in the `int`
member field. -/
def wrapToInt32 (v : Int) : Int :=
  if v % 4294967296 < 2147483648 then v % 4294967296 else v % 4294967296 - 4294967296

/-- GetL2capPduSize of acl_manager.cc: the little-endian 16-bit L2CAP length
at offset 0 of the payload; 0 when the payload is shorter than the 4-byte
basic header (the "invalid" sentinel). -/
def GetL2capPduSize (l2cap_payload : List Byte) : Nat :=
  if l2cap_payload.length < 4 then 0
  else (l2cap_payload.getD 1 0).val * 256 + (l2cap_payload.getD 0 0).val

/-- Append one reassembled PDU to incoming_queue_, dropping it when the queue
already holds more than kMaxQueuedPacketsPerConnection entries. -/
def pushIncoming (s : ConnReasmState) (payload : List Byte) : ConnReasmState :=
  if s.incoming_queue.length > kMaxQueuedPacketsPerConnection then s
  else { s with incoming_queue := s.incoming_queue ++ [payload] }

/-- AclManager::acl_connection::on_incoming_packet.  The CONTINUING guard
compares the int member converted to a 64-bit unsigned value against the
payload size; the FIRST branch stores the truncated pdu - (size - 4)
remainder, buffers the payload when the remainder is positive, and otherwise
falls through to the congestion check and enqueue of the fragment payload
(leaving recombination_stage_ untouched, as the C++ does). -/
def on_incoming_packet (s : ConnReasmState) (packet_boundary_flag : PacketBoundaryFlag)
    (payload : List Byte) : ConnReasmState :=
  match packet_boundary_flag with
  | .firstNonAutomaticallyFlushable => s
  | .continuingFragment =>
      if (s.remaining_sdu_continuation_packet_size % 18446744073709551616).toNat
          < payload.length then
        { s with recombination_stage := [], remaining_sdu_continuation_packet_size := 0 }
      else
        let remaining :=
          wrapToInt32 (s.remaining_sdu_continuation_packet_size - (payload.length : Int))
        let stage := s.recombination_stage ++ payload
        if remaining ≠ 0 then
          { s with recombination_stage := stage,
                   remaining_sdu_continuation_packet_size := remaining }
        else
          pushIncoming
            { s with recombination_stage := [],
                     remaining_sdu_continuation_packet_size := remaining } stage
  | .firstAutomaticallyFlushable =>
      let l2cap_pdu_size := GetL2capPduSize payload
      let remaining :=
        wrapToInt32 ((l2cap_pdu_size : Int) - ((payload.length : Int) - kL2capBasicFrameHeaderSize))
      if remaining > 0 then
        { s with recombination_stage := payload,
                 remaining_sdu_continuation_packet_size := remaining }
      else
        pushIncoming { s with remaining_sdu_continuation_packet_size := remaining } payload

/-- Fold on_incoming_packet over a fragment sequence. -/
def processPackets (s : ConnReasmState) (packets : List (PacketBoundaryFlag × List Byte)) :
    ConnReasmState :=
  packets.foldl (fun st p => on_incoming_packet st p.1 p.2) s

/-- The fragment-structure hypothesis exactly as the claim words it: every
CONTINUING payload size is at most the byte count still remaining, and the
sizes sum exactly to the initial remainder. -/
def claimedValidContinuations : Int → List (List Byte) → Bool
  | r, [] => r == 0
  | r, c :: cs =>
      (decide ((c.length : Int) ≤ r)) && claimedValidContinuations (r - (c.length : Int)) cs

/-- Strengthened fragment-structure hypothesis: additionally every CONTINUING
payload arrives while the reassembly is still incomplete (remaining byte
count positive). -/
def validContinuations : Int → List (List Byte) → Bool
  | r, [] => r == 0
  | r, c :: cs =>
      (decide (0 < r)) && (decide ((c.length : Int) ≤ r))
        && validContinuations (r - (c.length : Int)) cs

/-- One record of acl_connections_: the per-connection fields of
AclManager::acl_connection that the manager-level handlers read and write
(peer address, is_disconnected_, disconnect_reason_, whether management
callbacks are registered, the pending LE connection-update callback slot,
and the reassembly state). The callback slot stores an identifier of the
registered one-shot callback. -/
structure acl_connection where
  address : Nat
  is_disconnected : Bool
  disconnect_reason : Nat
  has_command_complete_callbacks : Bool
  on_connection_update_complete_callback : Option Nat
  reasm : ConnReasmState
deriving DecidableEq, Repr

/-- A freshly emplaced connection record. -/
def newAclConnection (address : Nat) : acl_connection :=
  { address := address
    is_disconnected := false
    disconnect_reason := 0
    has_command_complete_callbacks := false
    on_connection_update_complete_callback := none
    reasm := ⟨[], 0, []⟩ }

/-- State of AclManager::impl: the connection table keyed by handle, the
connecting_ and connecting_le_ sets, and the pending_outgoing_connections_
queue (each pending entry determined by its peer address). -/
structure AclManagerState where
  acl_connections : List (Nat × acl_connection)
  connecting : List Nat
  connecting_le : List Nat
  pending_outgoing_connections : List Nat
deriving DecidableEq, Repr

/-- acl_connections_.find(handle). -/
def findConnection (s : AclManagerState) (handle : Nat) : Option acl_connection :=
  (s.acl_connections.find? (fun p => p.1 == handle)).map Prod.snd

/-- Write back a connection record under its handle. -/
def updateConnection (s : AclManagerState) (handle : Nat) (c : acl_connection) :
    AclManagerState :=
  { s with acl_connections :=
      s.acl_connections.map (fun p => if p.1 == handle then (handle, c) else p) }

/-- std::set insert on an address set. -/
def insertAddress (l : List Nat) (a : Nat) : List Nat :=
  if a ∈ l then l else l ++ [a]

/-- AclManager::impl::is_classic_link_already_connected. -/
def is_classic_link_already_connected (conns : List (Nat × acl_connection))
    (address : Nat) : Bool :=
  conns.any (fun p => p.2.address == address)

/-- HCI commands whose enqueue the modelled operations trigger. -/
inductive HciCommand where
  | createConnection (address : Nat)
  | disconnect (handle reason : Nat)
  | changeConnectionPacketType (handle packetType : Nat)
  | authenticationRequested (handle : Nat)
  | setConnectionEncryption (handle : Nat) (enable : Bool)
  | readRssi (handle : Nat)
  | leConnectionUpdate
      (handle connIntervalMin connIntervalMax connLatency supervisionTimeout
        minCeLength maxCeLength : Nat)
deriving DecidableEq, Repr

/-- Observable effects of an event handler: enqueued HCI commands, posted
user callbacks, and round-robin scheduler calls. -/
inductive Output where
  | hciCommand (c : HciCommand)
  | onConnectSuccess (handle : Nat)
  | onConnectFail (address status : Nat)
  | onLeConnectSuccess (handle : Nat)
  | onLeConnectFail (peer status : Nat)
  | onDisconnect (handle reason : Nat)
  | schedulerRegister (handle : Nat)
  | schedulerSetDisconnect (handle : Nat)
  | managementCallbackPost (handle : Nat)
deriving DecidableEq, Repr

/-- A crash of the process: a failed C++ ASSERT, or undefined behaviour from
dereferencing the end() iterator of acl_connections_. -/
inductive Crash where
  | assertionFailure
  | invalidIteratorDereference
deriving DecidableEq, Repr

/-- Inputs originating from the controller: one dequeued ACL fragment, or one
of the modelled HCI events.  isValid is the result of the view validity
check on the packet bytes. -/
inductive ControllerInput where
  | aclPacket (isValid : Bool) (handle : Nat) (flag : PacketBoundaryFlag) (payload : List Byte)
  | connectionComplete (isValid : Bool) (status bdAddr handle : Nat)
  | leConnectionComplete (isValid : Bool) (status peer handle : Nat)
  | disconnectionComplete (isValid : Bool) (status handle reason : Nat)
  | connectionPacketTypeChanged (isValid : Bool) (status handle : Nat)
  | authenticationComplete (isValid : Bool) (status handle : Nat)
deriving DecidableEq, Repr

/-- The while loop at the end of AclManager::impl::on_connection_complete:
pop pending entries whose peer is meanwhile connected; for the first entry
whose peer is not connected, insert it into connecting_ and enqueue its
Create-Connection command, then stop.  Returns the remaining pending queue,
the new connecting_ set and the emitted outputs. -/
def drain_pending_outgoing (conns : List (Nat × acl_connection)) (connecting : List Nat) :
    List Nat → List Nat × List Nat × List Output
  | [] => ([], connecting, [])
  | a :: rest =>
      if is_classic_link_already_connected conns a then
        drain_pending_outgoing conns connecting rest
      else
        (rest, insertAddress connecting a,
          [Output.hciCommand (HciCommand.createConnection a)])

/-- AclManager::impl::on_connection_complete.  The view validity and the
handle freshness are enforced by ASSERT; connecting_ is erased before the
status check; the pending-outgoing queue is drained only on SUCCESS. -/
def on_connection_complete (s : AclManagerState) (isValid : Bool) (status bdAddr handle : Nat) :
    Except Crash (AclManagerState × List Output) :=
  if isValid then
    if status == 0 then
      if (findConnection { s with connecting := s.connecting.erase bdAddr } handle).isSome then
        Except.error Crash.assertionFailure
      else
        Except.ok
          ({ s with
              acl_connections := s.acl_connections ++ [(handle, newAclConnection bdAddr)],
              connecting :=
                (drain_pending_outgoing (s.acl_connections ++ [(handle, newAclConnection bdAddr)])
                  (s.connecting.erase bdAddr) s.pending_outgoing_connections).2.1,
              pending_outgoing_connections :=
                (drain_pending_outgoing (s.acl_connections ++ [(handle, newAclConnection bdAddr)])
                  (s.connecting.erase bdAddr) s.pending_outgoing_connections).1 },
            [Output.schedulerRegister handle, Output.onConnectSuccess handle]
              ++ (drain_pending_outgoing (s.acl_connections ++ [(handle, newAclConnection bdAddr)])
                   (s.connecting.erase bdAddr) s.pending_outgoing_connections).2.2)
    else
      Except.ok ({ s with connecting := s.connecting.erase bdAddr },
        [Output.onConnectFail bdAddr status])
  else Except.error Crash.assertionFailure

/-- AclManager::impl::on_le_connection_complete: ASSERT on validity and on
handle freshness; no pending-outgoing drain on the LE path. -/
def on_le_connection_complete (s : AclManagerState) (isValid : Bool) (status peer handle : Nat) :
    Except Crash (AclManagerState × List Output) :=
  if isValid then
    if status == 0 then
      if (findConnection { s with connecting_le := s.connecting_le.erase peer } handle).isSome then
        Except.error Crash.assertionFailure
      else
        Except.ok ({ s with
            connecting_le := s.connecting_le.erase peer,
            acl_connections := s.acl_connections ++ [(handle, newAclConnection peer)] },
          [Output.schedulerRegister handle, Output.onLeConnectSuccess handle])
    else
      Except.ok ({ s with connecting_le := s.connecting_le.erase peer },
        [Output.onLeConnectFail peer status])
  else Except.error Crash.assertionFailure

/-- AclManager::impl::on_disconnection_complete: ASSERT on validity; on
SUCCESS, ASSERT that the handle is in the table, then mark the record
disconnected, store the reason, post SetDisconnect to the scheduler and post
the disconnect callback; on error status, log only. -/
def on_disconnection_complete (s : AclManagerState) (isValid : Bool) (status handle reason : Nat) :
    Except Crash (AclManagerState × List Output) :=
  if isValid then
    if status == 0 then
      match findConnection s handle with
      | none => Except.error Crash.assertionFailure
      | some c =>
          Except.ok (updateConnection s handle
              { c with is_disconnected := true, disconnect_reason := reason },
            [Output.schedulerSetDisconnect handle, Output.onDisconnect handle reason])
    else Except.ok (s, [])
  else Except.error Crash.assertionFailure

/-- AclManager::impl::on_connection_packet_type_changed: invalid views and
error statuses are logged and dropped, but the handle lookup result is
dereferenced without an end() check. -/
def on_connection_packet_type_changed (s : AclManagerState) (isValid : Bool)
    (status handle : Nat) : Except Crash (AclManagerState × List Output) :=
  if isValid then
    if status == 0 then
      match findConnection s handle with
      | none => Except.error Crash.invalidIteratorDereference
      | some c =>
          Except.ok (s,
            if c.has_command_complete_callbacks then [Output.managementCallbackPost handle]
            else [])
    else Except.ok (s, [])
  else Except.ok (s, [])

/-- AclManager::impl::on_authentication_complete: same shape as
on_connection_packet_type_changed, including the unchecked lookup. -/
def on_authentication_complete (s : AclManagerState) (isValid : Bool)
    (status handle : Nat) : Except Crash (AclManagerState × List Output) :=
  if isValid then
    if status == 0 then
      match findConnection s handle with
      | none => Except.error Crash.invalidIteratorDereference
      | some c =>
          Except.ok (s,
            if c.has_command_complete_callbacks then [Output.managementCallbackPost handle]
            else [])
    else Except.ok (s, [])
  else Except.ok (s, [])

/-- AclManager::impl::dequeue_and_route_acl_packet_to_connection: invalid
packets, the vendor debug handle and unknown handles are dropped with a log;
otherwise the fragment is handed to the owning reassembler. -/
def dequeue_and_route_acl_packet_to_connection (s : AclManagerState) (isValid : Bool)
    (handle : Nat) (flag : PacketBoundaryFlag) (payload : List Byte) :
    Except Crash (AclManagerState × List Output) :=
  if isValid then
    if handle == kQualcommDebugHandle then Except.ok (s, [])
    else
      match findConnection s handle with
      | none => Except.ok (s, [])
      | some c =>
          Except.ok (updateConnection s handle
            { c with reasm := on_incoming_packet c.reasm flag payload }, [])
  else Except.ok (s, [])

/-- One manager processing step for one controller input. -/
def processControllerInput (s : AclManagerState) (input : ControllerInput) :
    Except Crash (AclManagerState × List Output) :=
  match input with
  | .aclPacket v h f p => dequeue_and_route_acl_packet_to_connection s v h f p
  | .connectionComplete v st a h => on_connection_complete s v st a h
  | .leConnectionComplete v st a h => on_le_connection_complete s v st a h
  | .disconnectionComplete v st h r => on_disconnection_complete s v st h r
  | .connectionPacketTypeChanged v st h => on_connection_packet_type_changed s v st h
  | .authenticationComplete v st h => on_authentication_complete s v st h

/-- AclManager::impl::create_connection: when connecting_ is empty, insert
the address and enqueue Create-Connection (unless already connected);
otherwise append the request to pending_outgoing_connections_. -/
def create_connection (s : AclManagerState) (address : Nat) : AclManagerState × List Output :=
  if s.connecting.isEmpty then
    if is_classic_link_already_connected s.acl_connections address then (s, [])
    else ({ s with connecting := insertAddress s.connecting address },
      [Output.hciCommand (HciCommand.createConnection address)])
  else
    ({ s with pending_outgoing_connections := s.pending_outgoing_connections ++ [address] }, [])

/-- The modelled user-initiated per-connection boolean operations. -/
inductive UserOp where
  | disconnectOp (reason : Nat)
  | changeConnectionPacketTypeOp (packetType : Nat)
  | authenticationRequestedOp
  | setConnectionEncryptionOp (enable : Bool)
  | readRssiOp
  | leConnectionUpdateOp
      (connIntervalMin connIntervalMax connLatency supervisionTimeout
        minCeLength maxCeLength callbackId : Nat)
deriving DecidableEq, Repr

/-- The boolean per-connection operations of AclManager::impl.  Every
operation first runs check_and_get_connection (whose existence ASSERT is
modelled as `none`), then returns false without posting anything when
is_disconnected_ is set.  LeConnectionUpdate additionally rejects when an
update is already pending, then stores the callback into the pending slot
and only afterwards validates the parameters, exactly as the C++ does. -/
def runUserOp (s : AclManagerState) (handle : Nat) (op : UserOp) :
    Option (Bool × List HciCommand × AclManagerState) :=
  match findConnection s handle with
  | none => none
  | some connection =>
      if connection.is_disconnected then some (false, [], s)
      else
        match op with
        | .disconnectOp reason => some (true, [HciCommand.disconnect handle reason], s)
        | .changeConnectionPacketTypeOp pt =>
            some (true, [HciCommand.changeConnectionPacketType handle pt], s)
        | .authenticationRequestedOp =>
            some (true, [HciCommand.authenticationRequested handle], s)
        | .setConnectionEncryptionOp e =>
            some (true, [HciCommand.setConnectionEncryption handle e], s)
        | .readRssiOp => some (true, [HciCommand.readRssi handle], s)
        | .leConnectionUpdateOp imin imax lat sto mince maxce cb =>
            if connection.on_connection_update_complete_callback.isSome then
              some (false, [], s)
            else
              if imin < 6 ∨ 3200 < imin ∨ imax < 6 ∨ 3200 < imax
                  ∨ 499 < lat ∨ sto < 10 ∨ 3200 < sto then
                some (false, [],
                  updateConnection s handle
                    { connection with on_connection_update_complete_callback := some cb })
              else
                some (true, [HciCommand.leConnectionUpdate handle imin imax lat sto mince maxce],
                  updateConnection s handle
                    { connection with on_connection_update_complete_callback := some cb })

/-- Predicate selecting Create-Connection commands among outputs. -/
def isCreateConnectionCommand : Output → Bool
  | Output.hciCommand (HciCommand.createConnection _) => true
  | _ => false

/-- An empty manager state. -/
def emptyAclManagerState : AclManagerState := ⟨[], [], [], []⟩

/-- A live (not disconnected) connection record to peer address 1. -/
def connLive : acl_connection := newAclConnection 1

/-- A connection record for which DISCONNECTION_COMPLETE has been processed. -/
def connGone : acl_connection := { newAclConnection 1 with is_disconnected := true }

/-- A manager state with one live connection under handle 64. -/
def sLive : AclManagerState := ⟨[(64, connLive)], [], [], []⟩

/-- A manager state with one disconnected connection under handle 64. -/
def sGone : AclManagerState := ⟨[(64, connGone)], [], [], []⟩

/-- The state reached from sLive after an LeConnectionUpdate call that was
rejected for invalid parameters with callback id 7. -/
def sAfterBadUpdate : AclManagerState :=
  updateConnection sLive 64
    { connLive with on_connection_update_complete_callback := some 7 }

/-- A manager state with a connect to address 1 in flight and a pending
outgoing connect to address 2. -/
def sConnectingPending : AclManagerState := ⟨[], [1], [], [2]⟩

instance exceptDecidableEq {ε α : Type} [DecidableEq ε] [DecidableEq α] :
    DecidableEq (Except ε α) := fun x y =>
  match x, y with
  | .error a, .error b =>
      if h : a = b then isTrue (by rw [h])
      else isFalse (by intro hc; cases hc; exact h rfl)
  | .error _, .ok _ => isFalse (by intro hc; cases hc)
  | .ok _, .error _ => isFalse (by intro hc; cases hc)
  | .ok a, .ok b =>
      if h : a = b then isTrue (by rw [h])
      else isFalse (by intro hc; cases hc; exact h rfl)

/-- Truncation to int is the identity on values that fit in 32 signed bits. -/
theorem wrapToInt32_eq_self {v : Int} (h0 : 0 ≤ v) (h1 : v < 2147483648) :
    wrapToInt32 v = v := by
  have hm : v % 4294967296 = v := Int.emod_eq_of_lt h0 (by omega)
  simp [wrapToInt32, hm, h1]

theorem wrapToInt32_zero : wrapToInt32 0 = 0 := by decide

/-- Unfolding of one CONTINUING step under the in-range and in-budget
hypotheses: the guard comparison does not fire and the truncations are the
identity. -/
theorem continuing_step (stage payload : List Byte) (r : Int) (q : List (List Byte))
    (h0 : 0 ≤ r) (h31 : r < 2147483648) (hlen : (payload.length : Int) ≤ r) :
    on_incoming_packet ⟨stage, r, q⟩ .continuingFragment payload
      = if r - (payload.length : Int) = 0
        then pushIncoming ⟨[], 0, q⟩ (stage ++ payload)
        else ⟨stage ++ payload, r - (payload.length : Int), q⟩ := by
  have hmod : r % 18446744073709551616 = r := Int.emod_eq_of_lt h0 (by omega)
  have hguard : ¬ ((r % 18446744073709551616).toNat < payload.length) := by
    rw [hmod]; omega
  have hwrap : wrapToInt32 (r - (payload.length : Int)) = r - (payload.length : Int) :=
    wrapToInt32_eq_self (by omega) (by omega)
  by_cases hz : r - (payload.length : Int) = 0
  · simp [on_incoming_packet, hguard, hwrap, hz, wrapToInt32_zero]
  · simp [on_incoming_packet, hguard, hwrap, hz]

/-- Unfolding of one FIRST step. -/
theorem first_step (s : ConnReasmState) (payload : List Byte) :
    on_incoming_packet s .firstAutomaticallyFlushable payload
      = (if wrapToInt32 ((GetL2capPduSize payload : Int) - ((payload.length : Int) - 4)) > 0
         then { s with recombination_stage := payload,
                       remaining_sdu_continuation_packet_size :=
                         wrapToInt32 ((GetL2capPduSize payload : Int)
                           - ((payload.length : Int) - 4)) }
         else pushIncoming
                { s with remaining_sdu_continuation_packet_size :=
                    wrapToInt32 ((GetL2capPduSize payload : Int)
                      - ((payload.length : Int) - 4)) } payload) := by
  simp [on_incoming_packet, kL2capBasicFrameHeaderSize]

/-- The parsed L2CAP length fits in 16 bits. -/
theorem GetL2capPduSize_le (payload : List Byte) : GetL2capPduSize payload ≤ 65535 := by
  unfold GetL2capPduSize
  split
  · omega
  · have h1 : (payload.getD 1 0).val < 256 := (payload.getD 1 0).isLt
    have h0 : (payload.getD 0 0).val < 256 := (payload.getD 0 0).isLt
    omega

theorem validContinuations_nil (r : Int) : validContinuations r [] = (r == 0) := rfl

theorem validContinuations_cons (r : Int) (c : List Byte) (cs : List (List Byte)) :
    validContinuations r (c :: cs)
      = ((decide (0 < r)) && (decide ((c.length : Int) ≤ r))
          && validContinuations (r - (c.length : Int)) cs) := rfl

/-- A valid continuation sequence carries exactly the remaining byte count. -/
theorem validContinuations_flatten_length :
    ∀ (cs : List (List Byte)) (r : Int), validContinuations r cs = true →
      (cs.flatten.length : Int) = r := by
  intro cs
  induction cs with
  | nil =>
      intro r hv
      rw [validContinuations_nil] at hv
      have hr : r = 0 := by simpa using hv
      simp [hr]
  | cons c cs ih =>
      intro r hv
      rw [validContinuations_cons] at hv
      simp only [Bool.and_eq_true, decide_eq_true_eq] at hv
      obtain ⟨⟨hpos, hle⟩, htail⟩ := hv
      have h2 := ih _ htail
      simp only [List.flatten_cons, List.length_append]
      push_cast
      push_cast at h2
      omega

/-- Main induction for reassembly: starting from an in-progress state with a
positive in-range remainder and an empty incoming queue, a strengthened
valid continuation sequence ends with exactly the accumulated PDU enqueued
and the recombination state cleared. -/
theorem processContinuations :
    ∀ (cs : List (List Byte)) (stage : List Byte) (r : Int),
      0 < r → r < 2147483648 → validContinuations r cs = true →
      processPackets ⟨stage, r, []⟩ (cs.map (fun c => (PacketBoundaryFlag.continuingFragment, c)))
        = ⟨[], 0, [stage ++ cs.flatten]⟩ := by
  intro cs
  induction cs with
  | nil =>
      intro stage r hr _ hv
      rw [validContinuations_nil] at hv
      have hr0 : r = 0 := by simpa using hv
      omega
  | cons c cs ih =>
      intro stage r hr h31 hv
      rw [validContinuations_cons] at hv
      simp only [Bool.and_eq_true, decide_eq_true_eq] at hv
      obtain ⟨⟨hpos, hle⟩, htail⟩ := hv
      have hstep : processPackets ⟨stage, r, []⟩
          ((c :: cs).map (fun c => (PacketBoundaryFlag.continuingFragment, c)))
          = processPackets (on_incoming_packet ⟨stage, r, []⟩ .continuingFragment c)
              (cs.map (fun c => (PacketBoundaryFlag.continuingFragment, c))) := rfl
      rw [hstep, continuing_step stage c r [] (le_of_lt hr) h31 hle]
      by_cases hz : r - (c.length : Int) = 0
      · rw [if_pos hz]
        have hcs : cs = [] := by
          cases cs with
          | nil => rfl
          | cons d ds =>
              rw [validContinuations_cons] at htail
              simp only [Bool.and_eq_true, decide_eq_true_eq] at htail
              obtain ⟨⟨hd, _⟩, _⟩ := htail
              omega
        subst hcs
        simp [processPackets, pushIncoming, kMaxQueuedPacketsPerConnection]
      · rw [if_neg hz]
        have hrec := ih (stage ++ c) (r - (c.length : Int))
          (by omega) (by omega) htail
        rw [hrec]
        simp [List.flatten_cons, List.append_assoc]

/-- Claim C1 (amended): for a FIRST fragment with payload of at least 4 bytes
processed from the empty reassembly state, followed by CONTINUING fragments
each of which arrives while the reassembly is still incomplete, whose sizes
are bounded by the remaining byte count and sum exactly to the declared PDU
length minus (first payload size - 4), the reassembler enqueues exactly one
inbound PDU equal to the concatenation of all fragment payloads, of size the
declared L2CAP PDU length plus 4 header bytes, and the recombination buffer
and remaining byte count are empty afterwards. -/
theorem C1_reassembles_concatenation (f : List Byte) (cs : List (List Byte))
    (hf : 4 ≤ f.length)
    (hv : validContinuations ((GetL2capPduSize f : Int) - ((f.length : Int) - 4)) cs = true) :
    processPackets ⟨[], 0, []⟩
        ((PacketBoundaryFlag.firstAutomaticallyFlushable, f)
          :: cs.map (fun c => (PacketBoundaryFlag.continuingFragment, c)))
      = ⟨[], 0, [f ++ cs.flatten]⟩
    ∧ (f ++ cs.flatten).length = GetL2capPduSize f + 4 := by
  have hpdu := GetL2capPduSize_le f
  have hflat := validContinuations_flatten_length cs _ hv
  have hlen2 : (f ++ cs.flatten).length = GetL2capPduSize f + 4 := by
    rw [List.length_append]
    omega
  refine ⟨?_, hlen2⟩
  have hstep : processPackets ⟨[], 0, []⟩
      ((PacketBoundaryFlag.firstAutomaticallyFlushable, f)
        :: cs.map (fun c => (PacketBoundaryFlag.continuingFragment, c)))
      = processPackets (on_incoming_packet ⟨[], 0, []⟩ .firstAutomaticallyFlushable f)
          (cs.map (fun c => (PacketBoundaryFlag.continuingFragment, c))) := rfl
  rw [hstep, first_step]
  have h0 : 0 ≤ (GetL2capPduSize f : Int) - ((f.length : Int) - 4) := by omega
  have h31 : (GetL2capPduSize f : Int) - ((f.length : Int) - 4) < 2147483648 := by omega
  rw [wrapToInt32_eq_self h0 h31]
  by_cases hz : 0 < (GetL2capPduSize f : Int) - ((f.length : Int) - 4)
  · rw [if_pos hz]
    exact processContinuations cs f _ hz h31 hv
  · rw [if_neg hz]
    have hr0 : (GetL2capPduSize f : Int) - ((f.length : Int) - 4) = 0 := by omega
    have hcs : cs = [] := by
      cases cs with
      | nil => rfl
      | cons d ds =>
          rw [validContinuations_cons] at hv
          simp only [Bool.and_eq_true, decide_eq_true_eq] at hv
          obtain ⟨⟨hd, _⟩, _⟩ := hv
          omega
    subst hcs
    simp [processPackets, pushIncoming, kMaxQueuedPacketsPerConnection, hr0]

/-- Witness for C1: a two-fragment PDU with declared length 2, first payload
of 5 bytes, one continuing byte; the emitted PDU is the 6-byte concatenation
and the queue holds exactly that one PDU. -/
theorem C1_reassembles_concatenation_witness :
    processPackets ⟨[], 0, []⟩
        ((PacketBoundaryFlag.firstAutomaticallyFlushable, ([2,0,1,0,170] : List Byte))
          :: ([[187]] : List (List Byte)).map
              (fun c => (PacketBoundaryFlag.continuingFragment, c)))
      = ⟨[], 0, [([2,0,1,0,170] : List Byte) ++ ([[187]] : List (List Byte)).flatten]⟩
    ∧ (([2,0,1,0,170] : List Byte) ++ ([[187]] : List (List Byte)).flatten).length
        = GetL2capPduSize ([2,0,1,0,170] : List Byte) + 4 :=
  C1_reassembles_concatenation [2,0,1,0,170] [[187]] (by decide) (by decide)

/-- Counterexample to C1 as stated: the literal hypotheses hold for a FIRST
fragment that completes the PDU (declared length 0, 4-byte payload) followed
by a CONTINUING fragment with empty payload (size 0 is at most the remaining
count 0, and the sizes still sum to 0), yet the code enqueues two PDUs (the
real one and a spurious empty one), not exactly one. -/
theorem C1_counterexample :
    4 ≤ ([0,0,1,0] : List Byte).length
    ∧ claimedValidContinuations ((GetL2capPduSize ([0,0,1,0] : List Byte) : Int)
        - ((([0,0,1,0] : List Byte).length : Int) - 4)) [[]] = true
    ∧ (processPackets ⟨[], 0, []⟩
        [(PacketBoundaryFlag.firstAutomaticallyFlushable, ([0,0,1,0] : List Byte)),
         (PacketBoundaryFlag.continuingFragment, [])]).incoming_queue.length = 2 := by
  decide

/-- Claim C3: the code does NOT discard the buffered partial PDU when a FIRST
fragment that is complete in itself arrives: after the second FIRST fragment
the recombination stage still holds the 5 stale bytes, and a later empty
CONTINUING fragment enqueues those stale bytes as a PDU.  This theorem
evaluates the model at the failing input. -/
theorem C3_stale_recombination_buffer_emitted :
    (processPackets ⟨[], 0, []⟩
        [(PacketBoundaryFlag.firstAutomaticallyFlushable, ([8,0,1,0,170] : List Byte)),
         (PacketBoundaryFlag.firstAutomaticallyFlushable, ([0,0,1,0] : List Byte))]
      ).recombination_stage = [8,0,1,0,170]
    ∧ processPackets ⟨[], 0, []⟩
        [(PacketBoundaryFlag.firstAutomaticallyFlushable, ([8,0,1,0,170] : List Byte)),
         (PacketBoundaryFlag.firstAutomaticallyFlushable, ([0,0,1,0] : List Byte)),
         (PacketBoundaryFlag.continuingFragment, [])]
      = ⟨[], 0, [[0,0,1,0], [8,0,1,0,170]]⟩ := by
  decide

/-- Counterexample to C4 as stated: a CONTINUING fragment with empty payload
processed while no reassembly is in progress enqueues one (empty) PDU, so
the inbound queue does not stay empty. -/
theorem C4_counterexample :
    on_incoming_packet ⟨[], 0, []⟩ .continuingFragment [] = ⟨[], 0, [[]]⟩
    ∧ (on_incoming_packet ⟨[], 0, []⟩ .continuingFragment []).incoming_queue ≠ [] := by
  decide

/-- Claim C4 (amended): for a CONTINUING fragment processed while no PDU
reassembly is in progress (recombination buffer empty, remaining count 0):
with a non-empty payload, the state is unchanged, so no PDU is enqueued and
the recombination state stays empty; with an empty payload the recombination
state stays empty but one empty PDU is enqueued (unless the inbound queue is
over its congestion cap). -/
theorem C4_continuing_without_first (s : ConnReasmState) (payload : List Byte)
    (h1 : s.recombination_stage = [])
    (h2 : s.remaining_sdu_continuation_packet_size = 0) :
    (payload ≠ [] → on_incoming_packet s .continuingFragment payload = s)
    ∧ (payload = [] →
        on_incoming_packet s .continuingFragment payload
          = if s.incoming_queue.length > 10 then s
            else { s with incoming_queue := s.incoming_queue ++ [[]] }) := by
  obtain ⟨st, r, q⟩ := s
  simp only at h1 h2
  subst h1 h2
  constructor
  · intro hne
    have hlen : 0 < payload.length := List.length_pos.mpr hne
    have hguard : ((0 : Int) % 18446744073709551616).toNat < payload.length := by
      simpa using hlen
    dsimp only [on_incoming_packet]
    rw [if_pos hguard]
  · intro he
    subst he
    dsimp only [on_incoming_packet]
    rw [if_neg (by simp)]
    rw [if_neg (by decide)]
    rfl

/-- Witness for C4 (amended): both branches at concrete inputs from the empty
state: a 1-byte CONTINUING leaves the state unchanged, an empty CONTINUING
enqueues one empty PDU. -/
theorem C4_continuing_without_first_witness :
    (([238] : List Byte) ≠ [] →
      on_incoming_packet ⟨[], 0, []⟩ .continuingFragment ([238] : List Byte) = ⟨[], 0, []⟩)
    ∧ (([238] : List Byte) = [] →
      on_incoming_packet ⟨[], 0, []⟩ .continuingFragment ([238] : List Byte)
        = if ([] : List (List Byte)).length > 10 then ⟨[], 0, []⟩
          else ⟨[], 0, [] ++ [[]]⟩) :=
  C4_continuing_without_first ⟨[], 0, []⟩ [238] (by decide) (by decide)

/-- Claim C5: the code does NOT drop a FIRST fragment whose payload is
shorter than the 4-byte L2CAP header: GetL2capPduSize returns the 0
"invalid" sentinel, but the caller ignores it, copies the 1-byte payload
into the recombination buffer and sets the remaining byte count to 3.  This
theorem evaluates the model at the failing input. -/
theorem C5_short_first_fragment_buffered :
    GetL2capPduSize ([170] : List Byte) = 0
    ∧ on_incoming_packet ⟨[], 0, []⟩ .firstAutomaticallyFlushable ([170] : List Byte)
        = ⟨[170], 3, []⟩ := by
  decide

/-- Updating an existing connection record makes lookups of its handle
return the new record (list level). -/
theorem find_map_update :
    ∀ (l : List (Nat × acl_connection)) (handle : Nat) (c2 : acl_connection),
      (l.find? (fun p => p.1 == handle)).isSome = true →
      ((l.map (fun p => if p.1 == handle then (handle, c2) else p)).find?
          (fun p => p.1 == handle)) = some (handle, c2) := by
  intro l handle c2
  induction l with
  | nil => intro h; simp at h
  | cons p l ih =>
      intro h
      by_cases hp : (p.1 == handle) = true
      · simp only [List.map_cons, hp, if_true]
        rw [List.find?_cons_of_pos]
        simp
      · simp only [List.map_cons, hp, if_false]
        rw [List.find?_cons_of_neg _ (by simp [hp])]
        apply ih
        rw [List.find?_cons_of_neg _ (by simp [hp])] at h
        exact h

/-- Updating an existing connection record makes findConnection of its
handle return the new record. -/
theorem findConnection_updateConnection (s : AclManagerState) (handle : Nat)
    (c c2 : acl_connection) (hc : findConnection s handle = some c) :
    findConnection (updateConnection s handle c2) handle = some c2 := by
  have hex : (s.acl_connections.find? (fun p => p.1 == handle)).isSome = true := by
    unfold findConnection at hc
    cases hfind : s.acl_connections.find? (fun p => p.1 == handle) with
    | none => rw [hfind] at hc; simp at hc
    | some q => simp [hfind]
  unfold findConnection updateConnection
  rw [find_map_update s.acl_connections handle c2 hex]
  rfl

/-- Claim C2 (amended to the part the code satisfies): the ingress routing
step of the manager never crashes on any dequeued ACL packet, valid or not,
for the vendor debug handle, and for known and unknown handles alike; it at
most drops the packet or updates the owning reassembler. -/
theorem C2_acl_ingress_step_never_crashes (s : AclManagerState) (isValid : Bool)
    (handle : Nat) (flag : PacketBoundaryFlag) (payload : List Byte) :
    ∃ r, processControllerInput s (ControllerInput.aclPacket isValid handle flag payload)
      = Except.ok r := by
  show ∃ r, dequeue_and_route_acl_packet_to_connection s isValid handle flag payload
    = Except.ok r
  unfold dequeue_and_route_acl_packet_to_connection
  cases isValid with
  | false => exact ⟨(s, []), rfl⟩
  | true =>
      by_cases hq : (handle == kQualcommDebugHandle) = true
      · exact ⟨(s, []), by simp [hq]⟩
      · cases hfc : findConnection s handle with
        | none => exact ⟨(s, []), by simp [hq, hfc]⟩
        | some c =>
            exact ⟨(updateConnection s handle
              { c with reasm := on_incoming_packet c.reasm flag payload }, []),
              by simp [hq, hfc]⟩

/-- Counterexample to C2 as stated: a DISCONNECTION_COMPLETE event with
status SUCCESS for a handle that is not in the connection table fails the
ASSERT(acl_connections_.count(handle) == 1) of on_disconnection_complete, so
the manager does crash on this controller input instead of logging and
dropping it. -/
theorem C2_counterexample :
    processControllerInput emptyAclManagerState
        (ControllerInput.disconnectionComplete true 0 64 19)
      = Except.error Crash.assertionFailure := by
  decide

/-- Claim C6: for CONNECTION_PACKET_TYPE_CHANGED and AUTHENTICATION_COMPLETE
events with a valid view and SUCCESS status whose handle is absent from the
connection table, the code dereferences the end() iterator returned by
acl_connections_.find (undefined behaviour) instead of logging a warning and
returning.  This theorem evaluates the model at the failing inputs. -/
theorem C6_unknown_handle_event_dereferences_end :
    processControllerInput emptyAclManagerState
        (ControllerInput.authenticationComplete true 0 64)
      = Except.error Crash.invalidIteratorDereference
    ∧ processControllerInput emptyAclManagerState
        (ControllerInput.connectionPacketTypeChanged true 0 64)
      = Except.error Crash.invalidIteratorDereference := by
  decide

/-- Claim C7: once a connection record has is_disconnected set, every
modelled user-initiated boolean per-connection operation returns false,
enqueues no HCI command, and leaves the manager state unchanged. -/
theorem C7_disconnected_operations_noop (s : AclManagerState) (handle : Nat)
    (op : UserOp) (c : acl_connection) (hc : findConnection s handle = some c)
    (hd : c.is_disconnected = true) :
    runUserOp s handle op = some (false, [], s) := by
  unfold runUserOp
  rw [hc]
  simp [hd]

/-- Witness for C7: ReadRssi on the disconnected connection of sGone returns
false with no command. -/
theorem C7_disconnected_operations_noop_witness :
    runUserOp sGone 64 UserOp.readRssiOp = some (false, [], sGone) :=
  C7_disconnected_operations_noop sGone 64 UserOp.readRssiOp connGone
    (by decide) (by decide)

/-- The drain loop of on_connection_complete emits at most one
Create-Connection command. -/
theorem drain_length_le_one (conns : List (Nat × acl_connection)) (connecting : List Nat) :
    ∀ pending, (drain_pending_outgoing conns connecting pending).2.2.length ≤ 1 := by
  intro pending
  induction pending with
  | nil => simp [drain_pending_outgoing]
  | cons a rest ih =>
      cases hh : is_classic_link_already_connected conns a with
      | true => simpa [drain_pending_outgoing, hh] using ih
      | false => simp [drain_pending_outgoing, hh]

/-- The drain loop pops the already-connected leading entries and then issues
exactly the Create-Connection of the first entry whose peer is not
connected. -/
theorem drain_first_eligible (conns : List (Nat × acl_connection)) :
    ∀ (skipped : List Nat) (connecting : List Nat) (b : Nat) (rest : List Nat),
      (∀ a ∈ skipped, is_classic_link_already_connected conns a = true) →
      is_classic_link_already_connected conns b = false →
      drain_pending_outgoing conns connecting (skipped ++ b :: rest)
        = (rest, insertAddress connecting b,
            [Output.hciCommand (HciCommand.createConnection b)]) := by
  intro skipped
  induction skipped with
  | nil =>
      intro connecting b rest _ hb
      simp [drain_pending_outgoing, hb]
  | cons a skipped ih =>
      intro connecting b rest hsk hb
      have ha : is_classic_link_already_connected conns a = true :=
        hsk a (List.mem_cons_self a skipped)
      have htail : ∀ x ∈ skipped, is_classic_link_already_connected conns x = true :=
        fun x hx => hsk x (List.mem_cons_of_mem a hx)
      simp only [List.cons_append, drain_pending_outgoing, ha, if_true]
      exact ih connecting b rest htail hb

/-- Definitional unfolding of a valid SUCCESS connection-complete event. -/
theorem on_connection_complete_success_unfold (s : AclManagerState) (bdAddr handle : Nat) :
    on_connection_complete s true 0 bdAddr handle
      = (if (findConnection { s with connecting := s.connecting.erase bdAddr } handle).isSome
         then Except.error Crash.assertionFailure
         else
          Except.ok
            ({ s with
                acl_connections := s.acl_connections ++ [(handle, newAclConnection bdAddr)],
                connecting :=
                  (drain_pending_outgoing
                    (s.acl_connections ++ [(handle, newAclConnection bdAddr)])
                    (s.connecting.erase bdAddr) s.pending_outgoing_connections).2.1,
                pending_outgoing_connections :=
                  (drain_pending_outgoing
                    (s.acl_connections ++ [(handle, newAclConnection bdAddr)])
                    (s.connecting.erase bdAddr) s.pending_outgoing_connections).1 },
              [Output.schedulerRegister handle, Output.onConnectSuccess handle]
                ++ (drain_pending_outgoing
                     (s.acl_connections ++ [(handle, newAclConnection bdAddr)])
                     (s.connecting.erase bdAddr) s.pending_outgoing_connections).2.2)) := rfl

/-- Counterexample to C9 as stated: with a connect to address 1 in flight and
address 2 pending, a CONNECTION_COMPLETE for address 1 with an ERROR status
leaves the pending queue untouched and issues no Create-Connection command,
so the oldest pending entry is NOT dequeued and issued on error-status
completions. -/
theorem C9_counterexample :
    processControllerInput sConnectingPending
        (ControllerInput.connectionComplete true 4 1 64)
      = Except.ok ((⟨[], [], [], [2]⟩ : AclManagerState), [Output.onConnectFail 1 4])
    ∧ sConnectingPending.pending_outgoing_connections = [2] := by
  decide

/-- Claim C9 (amended): while the connecting set is non-empty, a Classic
CreateConnection request is appended to the pending-outgoing queue and no
command is sent; when a CONNECTION_COMPLETE with status SUCCESS for a fresh
handle arrives, the leading pending entries whose peers are meanwhile
connected are discarded and the oldest remaining entry is dequeued and its
Create-Connection issued; and any SUCCESS completion issues at most one
Create-Connection command.  On an ERROR-status completion no pending entry
is issued (see the counterexample). -/
theorem C9_pending_outgoing_fifo (s : AclManagerState) :
    (∀ addr, s.connecting ≠ [] →
      create_connection s addr
        = ({ s with pending_outgoing_connections :=
              s.pending_outgoing_connections ++ [addr] }, []))
    ∧ (∀ bdAddr handle skipped b rest,
        findConnection s handle = none →
        s.pending_outgoing_connections = skipped ++ b :: rest →
        (∀ a ∈ skipped, is_classic_link_already_connected
          (s.acl_connections ++ [(handle, newAclConnection bdAddr)]) a = true) →
        is_classic_link_already_connected
          (s.acl_connections ++ [(handle, newAclConnection bdAddr)]) b = false →
        processControllerInput s (ControllerInput.connectionComplete true 0 bdAddr handle)
          = Except.ok
              ({ s with
                  acl_connections := s.acl_connections ++ [(handle, newAclConnection bdAddr)],
                  connecting := insertAddress (s.connecting.erase bdAddr) b,
                  pending_outgoing_connections := rest },
                [Output.schedulerRegister handle, Output.onConnectSuccess handle,
                 Output.hciCommand (HciCommand.createConnection b)]))
    ∧ (∀ bdAddr handle s2 outs,
        processControllerInput s (ControllerInput.connectionComplete true 0 bdAddr handle)
          = Except.ok (s2, outs) →
        (outs.filter isCreateConnectionCommand).length ≤ 1) := by
  refine ⟨?_, ?_, ?_⟩
  · intro addr hne
    have hie : s.connecting.isEmpty = false := by
      cases hcl : s.connecting with
      | nil => exact absurd hcl hne
      | cons x xs => rfl
    simp [create_connection, hie]
  · intro bdAddr handle skipped b rest hfresh hpend hsk hb
    have hfresh2 : findConnection { s with connecting := s.connecting.erase bdAddr } handle
        = none := hfresh
    show on_connection_complete s true 0 bdAddr handle = _
    rw [on_connection_complete_success_unfold]
    rw [if_neg (by rw [hfresh2]; simp)]
    rw [hpend]
    rw [drain_first_eligible (s.acl_connections ++ [(handle, newAclConnection bdAddr)])
      skipped (s.connecting.erase bdAddr) b rest hsk hb]
    rfl
  · intro bdAddr handle s2 outs hstep
    have hstep2 : on_connection_complete s true 0 bdAddr handle
        = Except.ok (s2, outs) := hstep
    rw [on_connection_complete_success_unfold] at hstep2
    by_cases hfc :
        (findConnection { s with connecting := s.connecting.erase bdAddr } handle).isSome = true
    · rw [if_pos hfc] at hstep2
      simp at hstep2
    · rw [if_neg hfc] at hstep2
      simp only [Except.ok.injEq, Prod.mk.injEq] at hstep2
      obtain ⟨h1, h2⟩ := hstep2
      subst h2
      rw [List.filter_append, List.length_append]
      have hdl := drain_length_le_one
        (s.acl_connections ++ [(handle, newAclConnection bdAddr)])
        (s.connecting.erase bdAddr) s.pending_outgoing_connections
      have hfl := List.length_filter_le isCreateConnectionCommand
        (drain_pending_outgoing (s.acl_connections ++ [(handle, newAclConnection bdAddr)])
          (s.connecting.erase bdAddr) s.pending_outgoing_connections).2.2
      have hz : (List.filter isCreateConnectionCommand
          [Output.schedulerRegister handle, Output.onConnectSuccess handle]).length = 0 := rfl
      omega

/-- Witness for C9 (amended): queueing a connect to address 2 while address 1
is connecting appends it; the following SUCCESS completion for address 1
dequeues the pending entry and issues exactly its Create-Connection. -/
theorem C9_pending_outgoing_fifo_witness :
    create_connection (⟨[], [1], [], []⟩ : AclManagerState) 2
      = ((⟨[], [1], [], [2]⟩ : AclManagerState), [])
    ∧ processControllerInput (⟨[], [1], [], [2]⟩ : AclManagerState)
        (ControllerInput.connectionComplete true 0 1 64)
      = Except.ok ((⟨[(64, newAclConnection 1)], [2], [], []⟩ : AclManagerState),
          [Output.schedulerRegister 64, Output.onConnectSuccess 64,
           Output.hciCommand (HciCommand.createConnection 2)]) := by
  constructor
  · have h := (C9_pending_outgoing_fifo ⟨[], [1], [], []⟩).1 2 (by decide)
    exact h.trans (by decide)
  · have h := (C9_pending_outgoing_fifo ⟨[], [1], [], [2]⟩).2.1 1 64 [] 2 []
      (by decide) rfl (by decide) (by decide)
    exact h.trans (by decide)

/-- Counterexample to C8 as stated: LeConnectionUpdate on a live handle with
no pending update and an out-of-range conn_interval_min (5) returns false
and enqueues nothing, but the pending-update slot is left FILLED with the
failed callback (id 7), so a subsequent LeConnectionUpdate with valid
parameters on the same handle IS rejected as already pending. -/
theorem C8_counterexample :
    runUserOp sLive 64 (UserOp.leConnectionUpdateOp 5 32 0 256 2 2 7)
      = some (false, [], sAfterBadUpdate)
    ∧ (findConnection sAfterBadUpdate 64).map
        (fun x => x.on_connection_update_complete_callback) = some (some 7)
    ∧ runUserOp sAfterBadUpdate 64 (UserOp.leConnectionUpdateOp 16 32 0 256 2 2 8)
      = some (false, [], sAfterBadUpdate) := by
  decide

/-- Claim C8 (amended): on a live handle with no pending update, an
LeConnectionUpdate call with any parameter out of range returns false and
issues no HCI command, but it stores its callback into the pending-update
slot, so the slot is NOT left empty; and a second LeConnectionUpdate while
an update is pending returns false, issues no command, changes nothing, and
leaves the first callback pending. -/
theorem C8_le_connection_update_validation (s : AclManagerState) (handle : Nat)
    (c : acl_connection) (imin imax lat sto mince maxce cb : Nat)
    (hc : findConnection s handle = some c) (hd : c.is_disconnected = false) :
    (c.on_connection_update_complete_callback = none →
      (imin < 6 ∨ 3200 < imin ∨ imax < 6 ∨ 3200 < imax ∨ 499 < lat ∨ sto < 10 ∨ 3200 < sto) →
      runUserOp s handle (UserOp.leConnectionUpdateOp imin imax lat sto mince maxce cb)
        = some (false, [],
            updateConnection s handle
              { c with on_connection_update_complete_callback := some cb }))
    ∧ (∀ k, c.on_connection_update_complete_callback = some k →
        runUserOp s handle (UserOp.leConnectionUpdateOp imin imax lat sto mince maxce cb)
          = some (false, [], s)
        ∧ (findConnection s handle).map
            (fun x => x.on_connection_update_complete_callback) = some (some k)) := by
  constructor
  · intro hnone hbad
    unfold runUserOp
    rw [hc]
    simp only [hd, Bool.false_eq_true, if_false, hnone, Option.isSome_none]
    rw [if_pos hbad]
  · intro k hk
    refine ⟨?_, by rw [hc]; simp [hk]⟩
    unfold runUserOp
    rw [hc]
    simp [hd, hk]

/-- Witness for C8 (amended): the out-of-range call on sLive returns false
and fills the slot with callback id 7. -/
theorem C8_le_connection_update_validation_witness :
    runUserOp sLive 64 (UserOp.leConnectionUpdateOp 5 32 0 256 2 2 7)
      = some (false, [],
          updateConnection sLive 64
            { connLive with on_connection_update_complete_callback := some 7 }) :=
  (C8_le_connection_update_validation sLive 64 connLive 5 32 0 256 2 2 7
      (by decide) (by decide)).1 (by decide) (by decide)

/-- Counterexample to C10 as stated: on a live handle whose
DISCONNECTION_COMPLETE has not arrived, a Disconnect call returns true,
enqueues an HCI Disconnect command and leaves the state unchanged, so a
second Disconnect call (on the same, unchanged state) again returns true and
enqueues a second HCI Disconnect command, instead of returning false. -/
theorem C10_counterexample :
    runUserOp sLive 64 (UserOp.disconnectOp 19)
      = some (true, [HciCommand.disconnect 64 19], sLive)
    ∧ (runUserOp sLive 64 (UserOp.disconnectOp 19)).map (fun r => r.1) = some true := by
  decide

/-- Claim C10 (amended): Disconnect becomes idempotent only once the
DISCONNECTION_COMPLETE event has been processed: before it, every Disconnect
call on a live handle returns true and enqueues an HCI Disconnect command
without changing the state; after the record is marked disconnected (and in
particular after processing a successful DISCONNECTION_COMPLETE), every
Disconnect call returns false and enqueues nothing. -/
theorem C10_disconnect_idempotent_only_after_event (s : AclManagerState)
    (handle reason : Nat) (c : acl_connection)
    (hc : findConnection s handle = some c) :
    (c.is_disconnected = false →
      runUserOp s handle (UserOp.disconnectOp reason)
        = some (true, [HciCommand.disconnect handle reason], s))
    ∧ (c.is_disconnected = true →
      runUserOp s handle (UserOp.disconnectOp reason) = some (false, [], s))
    ∧ (∀ s2 outs r0,
        processControllerInput s (ControllerInput.disconnectionComplete true 0 handle r0)
          = Except.ok (s2, outs) →
        runUserOp s2 handle (UserOp.disconnectOp reason) = some (false, [], s2)) := by
  refine ⟨?_, ?_, ?_⟩
  · intro hlive
    unfold runUserOp
    rw [hc]
    simp [hlive]
  · intro hdead
    unfold runUserOp
    rw [hc]
    simp [hdead]
  · intro s2 outs r0 hstep
    have hred : processControllerInput s (ControllerInput.disconnectionComplete true 0 handle r0)
        = Except.ok (updateConnection s handle
            { c with is_disconnected := true, disconnect_reason := r0 },
          [Output.schedulerSetDisconnect handle, Output.onDisconnect handle r0]) := by
      show on_disconnection_complete s true 0 handle r0 = _
      unfold on_disconnection_complete
      rw [hc]
      rfl
    rw [hred] at hstep
    have hs2 : s2 = updateConnection s handle
        { c with is_disconnected := true, disconnect_reason := r0 } := by
      cases hstep
      rfl
    subst hs2
    have hfind := findConnection_updateConnection s handle c
      { c with is_disconnected := true, disconnect_reason := r0 } hc
    unfold runUserOp
    rw [hfind]
    simp

/-- Witness for C10 (amended): on sLive, the first Disconnect returns true
with the Disconnect command; after processing the DISCONNECTION_COMPLETE
event the call returns false. -/
theorem C10_disconnect_idempotent_only_after_event_witness :
    runUserOp sLive 64 (UserOp.disconnectOp 19)
      = some (true, [HciCommand.disconnect 64 19], sLive)
    ∧ runUserOp sGone 64 (UserOp.disconnectOp 19) = some (false, [], sGone) :=
  ⟨(C10_disconnect_idempotent_only_after_event sLive 64 19 connLive (by decide)).1
      (by decide),
   (C10_disconnect_idempotent_only_after_event sGone 64 19 connGone (by decide)).2.1
      (by decide)⟩

end Hci
